import Mathlib

/-!
# CSebbuTSDS: the pause primitive and the startup trigger

A shallow embedding of `Sources/CSebbuTSDS/include/include.h` and
`Sources/CSebbuTSDS/pause.c`.

* The preprocessor dispatch `#if defined(..) ... #elif ... #else ... #endif` becomes a
  function of the list of names that are defined when the translation unit is compiled.
  It returns the template string handed to `__asm__`.
* A run-time state keeps registers, memory, the log of calls made to the external
  routine `setup_shared_threadpool` (one entry per call, holding the arguments passed)
  and the log of hint instructions the processor executed.
* `__asm__` gives the three templates that occur in the source their meaning; any other
  template has no meaning here and yields `none`.
-/

namespace CSebbuTSDS

/-! ## Build target -/

/-- The preprocessor operator `defined(name)`, over the list of names defined at
compile time (compiler-predefined or given on the command line). -/
def defined (env : List String) (name : String) : Bool :=
  env.contains name

/-! ## Run-time state -/

/-- Program state. `regs` and `mem` are the register file and the memory,
`setupCalls` logs every call of `setup_shared_threadpool` with the arguments it received,
`hints` logs the hint instructions executed so far (pipeline state, timing only). -/
structure State where
  regs : Nat → Nat
  mem : Nat → Nat
  setupCalls : List (List Nat)
  hints : List String

/-- The program-visible part of a state: registers, memory and the number of calls
made to the external thread-pool initializer. -/
structure Visible where
  regs : Nat → Nat
  mem : Nat → Nat
  setupCount : Nat

/-- Projection of a state onto its program-visible part. -/
def State.visible (s : State) : Visible :=
  ⟨s.regs, s.mem, s.setupCalls.length⟩

/-- Inline assembly statement `__asm__(template)`. The empty template emits nothing.
`pause` (x86) and `yield` (ARM) are hint instructions: they touch no register and no
memory, the processor only records the hint. Other templates are not given a meaning. -/
def __asm__ (template : String) (s : State) : Option State :=
  if template = "" then some s
  else if template = "pause" ∨ template = "yield" then
    some { s with hints := s.hints ++ [template] }
  else none

/-! ## include.h -/

namespace include_h

/-- The `hardware_pause()` definition selected by include.h, lines 8-14. -/
def hardware_pause (env : List String) : String :=
  if defined env "__x86_64__" || defined env "__i386__" || defined env "_M_X64" then
    "pause"
  else if (defined env "__arm__" && defined env "_ARM_ARCH_7" && defined env "__thumb__")
      || defined env "__arm64__" then
    "yield"
  else
    ""

end include_h

/-- The function `static inline void _hardware_pause()` of include.h, lines 16-18. -/
def _hardware_pause (env : List String) (s : State) : Option State :=
  __asm__ (include_h.hardware_pause env) s

/-! ## pause.c -/

namespace pause_c

/-- The `hardware_pause()` definition selected by pause.c, lines 10-16. It comes after
the `#include` of include.h and redefines the name under the same conditions; it is the
definition in force where `_pause` is compiled. -/
def hardware_pause (env : List String) : String :=
  if defined env "__x86_64__" || defined env "__i386__" || defined env "_M_X64" then
    "pause"
  else if (defined env "__arm__" && defined env "_ARM_ARCH_7" && defined env "__thumb__")
      || defined env "__arm64__" then
    "yield"
  else
    ""

end pause_c

/-- The function `void _pause()` of pause.c, lines 18-20. -/
def _pause (env : List String) (s : State) : Option State :=
  __asm__ (pause_c.hardware_pause env) s

/-- Modelled from the spec: the external routine `setup_shared_threadpool` is only called,
never declared or defined, in these two files. It stands here as the spec's test double,
which records every invocation together with the arguments it was given and does
nothing else. -/
def setup_shared_threadpool (args : List Nat) (s : State) : State :=
  { s with setupCalls := s.setupCalls ++ [args] }

/-- The function `__attribute__((constructor)) void setupSharedThreadPool()` of pause.c,
lines 22-24: one call of the external routine, with no argument. -/
def setupSharedThreadPool (s : State) : State :=
  setup_shared_threadpool [] s

/-! ## Process runs -/

/-- State of a fresh process, before the loader has run any constructor. -/
def processStart (regs mem : Nat → Nat) : State :=
  ⟨regs, mem, [], []⟩

/-- Load step: the loader runs the constructor functions of the unit, once each.
This unit has a single one. -/
def load (s : State) : State :=
  setupSharedThreadPool s

/-- The call `f()` made `n` times in a row; stops at the first call that fails. -/
def callN (f : State → Option State) : Nat → State → Option State
  | 0, s => some s
  | n + 1, s => (f s).bind (callN f n)

/-- Application steps after loading: step `n` of the list calls `_pause()` `n` times. -/
def runApp (env : List String) : List Nat → State → Option State
  | [], s => some s
  | n :: rest, s => (callN (_pause env) n s).bind (runApp env rest)

/-- A whole process run: the load step, then the application steps. -/
def processRun (env : List String) (regs mem : Nat → Nat) (steps : List Nat) :
    Option State :=
  runApp env steps (load (processStart regs mem))

/-- The trigger executed `k` times in one process (by the loader, and again through its
externally visible symbol). -/
def triggerN : Nat → State → State
  | 0, s => s
  | k + 1, s => triggerN k (setupSharedThreadPool s)

/-- The hint instructions a template adds to the log. -/
def emitted (template : String) : List String :=
  if template = "" then [] else [template]

/-! ## Auxiliary facts -/

theorem asm_empty (s : State) : __asm__ "" s = some s := by
  simp [__asm__]

theorem asm_pause (s : State) :
    __asm__ "pause" s = some { s with hints := s.hints ++ ["pause"] } := by
  simp [__asm__]

theorem asm_yield (s : State) :
    __asm__ "yield" s = some { s with hints := s.hints ++ ["yield"] } := by
  simp [__asm__]

theorem pause_c_cases (env : List String) :
    pause_c.hardware_pause env = "pause" ∨ pause_c.hardware_pause env = "yield" ∨
      pause_c.hardware_pause env = "" := by
  unfold pause_c.hardware_pause
  split_ifs <;> simp

theorem include_h_eq_pause_c (env : List String) :
    include_h.hardware_pause env = pause_c.hardware_pause env := rfl

theorem asm_of_known (t : String) (ht : t = "pause" ∨ t = "yield" ∨ t = "") (s : State) :
    __asm__ t s = some { s with hints := s.hints ++ emitted t } := by
  rcases ht with h | h | h <;> subst h <;> simp [__asm__, emitted]

theorem pause_eq (env : List String) (s : State) :
    _pause env s =
      some { s with hints := s.hints ++ emitted (pause_c.hardware_pause env) } :=
  asm_of_known _ (pause_c_cases env) s

theorem callN_pause (env : List String) (n : Nat) (s : State) :
    ∃ s', callN (_pause env) n s = some s' ∧ s'.regs = s.regs ∧ s'.mem = s.mem ∧
      s'.setupCalls = s.setupCalls := by
  induction n generalizing s with
  | zero => exact ⟨s, rfl, rfl, rfl, rfl⟩
  | succ n ih =>
    obtain ⟨s', h, hr, hm, hc⟩ := ih { s with hints := s.hints ++ emitted (pause_c.hardware_pause env) }
    exact ⟨s', by simp [callN, pause_eq, h], hr, hm, hc⟩

theorem runApp_frame (env : List String) (steps : List Nat) (s : State) :
    ∃ s', runApp env steps s = some s' ∧ s'.regs = s.regs ∧ s'.mem = s.mem ∧
      s'.setupCalls = s.setupCalls := by
  induction steps generalizing s with
  | nil => exact ⟨s, rfl, rfl, rfl, rfl⟩
  | cons n rest ih =>
    obtain ⟨s1, h1, hr1, hm1, hc1⟩ := callN_pause env n s
    obtain ⟨s2, h2, hr2, hm2, hc2⟩ := ih s1
    exact ⟨s2, by simp [runApp, h1, h2], hr2.trans hr1, hm2.trans hm1, hc2.trans hc1⟩

theorem triggerN_calls (k : Nat) (s : State) :
    (triggerN k s).setupCalls = s.setupCalls ++ List.replicate k [] ∧
      (triggerN k s).regs = s.regs ∧ (triggerN k s).mem = s.mem ∧
      (triggerN k s).hints = s.hints := by
  induction k generalizing s with
  | zero => simp [triggerN]
  | succ k ih =>
    obtain ⟨hc, hr, hm, hh⟩ := ih (setupSharedThreadPool s)
    refine ⟨?_, ?_, ?_, ?_⟩
    · rw [triggerN, hc]
      simp [setupSharedThreadPool, setup_shared_threadpool, List.replicate_succ]
    · rw [triggerN, hr]; rfl
    · rw [triggerN, hm]; rfl
    · rw [triggerN, hh]; rfl

/-! ## The pause primitive -/

/-- C1: on every build target (whichever branch of the dispatch is taken) and from every
state, `_pause()` returns normally and leaves the program-visible state (registers,
memory, number of calls of the thread-pool initializer) unchanged; the only thing that
may differ afterwards is the processor's log of hints. -/
theorem pause_returns_and_keeps_visible_state (env : List String) (s : State) :
    ∃ s', _pause env s = some s' ∧ s'.visible = s.visible ∧
      s' = { s with hints := s'.hints } := by
  exact ⟨_, pause_eq env s, rfl, rfl⟩

/-- C2: when at least one of `__x86_64__`, `__i386__`, `_M_X64` is defined, both
dispatches select the template `pause`, whatever else is defined, and `_pause()` and
`_hardware_pause()` execute exactly the instruction `pause`. -/
theorem x86_selects_pause (env : List String)
    (h : defined env "__x86_64__" = true ∨ defined env "__i386__" = true ∨
      defined env "_M_X64" = true) (s : State) :
    include_h.hardware_pause env = "pause" ∧ pause_c.hardware_pause env = "pause" ∧
      _pause env s = some { s with hints := s.hints ++ ["pause"] } ∧
      _hardware_pause env s = some { s with hints := s.hints ++ ["pause"] } := by
  have hp : pause_c.hardware_pause env = "pause" := by
    unfold pause_c.hardware_pause
    rcases h with h | h | h <;> simp [h]
  refine ⟨hp, hp, ?_, ?_⟩
  · rw [_pause, hp, asm_pause]
  · rw [_hardware_pause, include_h_eq_pause_c, hp, asm_pause]

/-- Instance of C2 on a target that defines `_M_X64` together with every name of the
ARM condition: `pause` still wins. -/
theorem x86_selects_pause_witness :
    (defined ["_M_X64", "__arm64__", "__arm__", "_ARM_ARCH_7", "__thumb__"] "__x86_64__" = true ∨
      defined ["_M_X64", "__arm64__", "__arm__", "_ARM_ARCH_7", "__thumb__"] "__i386__" = true ∨
      defined ["_M_X64", "__arm64__", "__arm__", "_ARM_ARCH_7", "__thumb__"] "_M_X64" = true) ∧
    pause_c.hardware_pause ["_M_X64", "__arm64__", "__arm__", "_ARM_ARCH_7", "__thumb__"]
      = "pause" ∧
    _pause ["_M_X64", "__arm64__", "__arm__", "_ARM_ARCH_7", "__thumb__"]
        (processStart (fun _ => 0) (fun _ => 0))
      = some ⟨fun _ => 0, fun _ => 0, [], ["pause"]⟩ :=
  ⟨by decide,
    (x86_selects_pause ["_M_X64", "__arm64__", "__arm__", "_ARM_ARCH_7", "__thumb__"]
      (by decide) (processStart (fun _ => 0) (fun _ => 0))).2.1,
    (x86_selects_pause ["_M_X64", "__arm64__", "__arm__", "_ARM_ARCH_7", "__thumb__"]
      (by decide) (processStart (fun _ => 0) (fun _ => 0))).2.2.1⟩

/-- C3 (evaluation at the failing input): on a 64-bit ARM target whose compiler defines
`__aarch64__` but not `__arm64__` (GCC or Clang for Linux), both dispatches select the
empty template and `_pause()` executes nothing; the same happens on an ARMv7 Thumb
target that defines `__arm__`, `__thumb__` and `__ARM_ARCH_7A__`. -/
theorem aarch64_without_arm64_selects_empty :
    pause_c.hardware_pause ["__aarch64__", "__linux__", "__GNUC__"] = "" ∧
    include_h.hardware_pause ["__aarch64__", "__linux__", "__GNUC__"] = "" ∧
    _pause ["__aarch64__", "__linux__", "__GNUC__"] (processStart (fun _ => 0) (fun _ => 0))
      = some (processStart (fun _ => 0) (fun _ => 0)) ∧
    pause_c.hardware_pause ["__arm__", "__thumb__", "__ARM_ARCH_7A__", "__ARM_ARCH"] = "" := by
  refine ⟨by decide, by decide, ?_, by decide⟩
  have h : pause_c.hardware_pause ["__aarch64__", "__linux__", "__GNUC__"] = "" := by decide
  rw [_pause, h, asm_empty]

/-- C4: when neither the x86 condition nor the ARM condition of the dispatch holds, both
dispatches select the empty template and `_pause()` (like `_hardware_pause()`) returns
the state it was given, hint log included; and on every target whatsoever the dispatch
selects one of its three templates. -/
theorem fallback_selects_empty (env : List String)
    (hx : (defined env "__x86_64__" || defined env "__i386__" || defined env "_M_X64") = false)
    (ha : ((defined env "__arm__" && defined env "_ARM_ARCH_7" && defined env "__thumb__")
      || defined env "__arm64__") = false) (s : State) :
    pause_c.hardware_pause env = "" ∧ include_h.hardware_pause env = "" ∧
      _pause env s = some s ∧ _hardware_pause env s = some s ∧
      (∀ other : List String, pause_c.hardware_pause other = "pause" ∨
        pause_c.hardware_pause other = "yield" ∨ pause_c.hardware_pause other = "") := by
  have hp : pause_c.hardware_pause env = "" := by
    unfold pause_c.hardware_pause
    rw [hx, ha]
    rfl
  refine ⟨hp, hp, ?_, ?_, pause_c_cases⟩
  · rw [_pause, hp, asm_empty]
  · rw [_hardware_pause, include_h_eq_pause_c, hp, asm_empty]

/-- Instance of C4 on a RISC-V target. -/
theorem fallback_selects_empty_witness :
    (defined ["__riscv"] "__x86_64__" || defined ["__riscv"] "__i386__" ||
      defined ["__riscv"] "_M_X64") = false ∧
    ((defined ["__riscv"] "__arm__" && defined ["__riscv"] "_ARM_ARCH_7" &&
      defined ["__riscv"] "__thumb__") || defined ["__riscv"] "__arm64__") = false ∧
    _pause ["__riscv"] (processStart (fun _ => 7) (fun _ => 9))
      = some (processStart (fun _ => 7) (fun _ => 9)) :=
  ⟨by decide, by decide,
    (fallback_selects_empty ["__riscv"] (by decide) (by decide)
      (processStart (fun _ => 7) (fun _ => 9))).2.2.1⟩

/-- C7: for every build target, state and `n ≥ 1`, calling `_pause()` `n` times in a row
succeeds and gives the same program-visible state as calling it once; and a call made
after any number `m` of earlier calls succeeds, keeps the visible state and executes the
same instruction `d`, whatever `m` is. -/
theorem pause_repeated_same_as_once (env : List String) (s : State) (n : Nat)
    (hn : 1 ≤ n) :
    (∃ sn s1, callN (_pause env) n s = some sn ∧ _pause env s = some s1 ∧
        sn.visible = s1.visible) ∧
      (∃ d, ∀ m, ∃ sm sm', callN (_pause env) m s = some sm ∧
        _pause env sm = some sm' ∧ sm'.visible = s.visible ∧
        sm'.hints = sm.hints ++ d) := by
  constructor
  · obtain ⟨k, rfl⟩ : ∃ k, n = k + 1 := ⟨n - 1, by omega⟩
    obtain ⟨sn, h, hr, hm, hc⟩ := callN_pause env (k + 1) s
    refine ⟨sn, _, h, pause_eq env s, ?_⟩
    simp [State.visible, hr, hm, hc]
  · refine ⟨emitted (pause_c.hardware_pause env), fun m => ?_⟩
    obtain ⟨sm, h, hr, hm, hc⟩ := callN_pause env m s
    refine ⟨sm, _, h, pause_eq env sm, ?_, rfl⟩
    simp [State.visible, hr, hm, hc]

/-- Instance of C7: three calls on an Apple 64-bit ARM target. -/
theorem pause_repeated_same_as_once_witness :
    1 ≤ 3 ∧
    ∃ sn s1, callN (_pause ["__arm64__"]) 3 (processStart (fun _ => 0) (fun _ => 0)) = some sn ∧
      _pause ["__arm64__"] (processStart (fun _ => 0) (fun _ => 0)) = some s1 ∧
      sn.visible = s1.visible :=
  ⟨by decide,
    (pause_repeated_same_as_once ["__arm64__"] (processStart (fun _ => 0) (fun _ => 0)) 3
      (by decide)).1⟩

/-- C9: the dispatch is a total function of the build target: on every target exactly
one of the templates `pause`, `yield` and the empty one is selected, and the
instruction `_pause()` executes (`d`) is the same from every run-time state. -/
theorem dispatch_total_and_static (env : List String) :
    ((pause_c.hardware_pause env = "pause" ∧ pause_c.hardware_pause env ≠ "yield" ∧
        pause_c.hardware_pause env ≠ "") ∨
      (pause_c.hardware_pause env ≠ "pause" ∧ pause_c.hardware_pause env = "yield" ∧
        pause_c.hardware_pause env ≠ "") ∨
      (pause_c.hardware_pause env ≠ "pause" ∧ pause_c.hardware_pause env ≠ "yield" ∧
        pause_c.hardware_pause env = "")) ∧
    ∃ d, d = emitted (pause_c.hardware_pause env) ∧
      ∀ s : State, ∃ s', _pause env s = some s' ∧ s'.hints = s.hints ++ d := by
  constructor
  · rcases pause_c_cases env with h | h | h <;> rw [h] <;> decide
  · exact ⟨_, rfl, fun s => ⟨_, pause_eq env s, rfl⟩⟩

/-- C10: the dispatch of include.h and the repeated dispatch of pause.c select the same
template on every build target, so `_hardware_pause()` and `_pause()` have the same
result from every state. -/
theorem header_pause_equals_exported_pause (env : List String) (s : State) :
    include_h.hardware_pause env = pause_c.hardware_pause env ∧
      _hardware_pause env s = _pause env s :=
  ⟨rfl, rfl⟩

/-! ## The startup trigger -/

/-- C5: in every process run (the load step, then any application steps that call
`_pause()`), the initializer has been invoked exactly once, with no argument, when the
load step ends and before any application instruction; the run reaches its exit and the
log of invocations is still that single one there, also after 100 steps of 10000
calls. -/
theorem initializer_invoked_once_per_run (env : List String) (regs mem : Nat → Nat)
    (steps : List Nat) :
    (processStart regs mem).setupCalls = [] ∧
      (load (processStart regs mem)).setupCalls = [[]] ∧
      (load (processStart regs mem)).hints = [] ∧
      (∃ sExit, processRun env regs mem steps = some sExit ∧ sExit.setupCalls = [[]] ∧
        sExit.setupCalls.length = 1) ∧
      (∃ sExit, processRun env regs mem (List.replicate 100 10000) = some sExit ∧
        sExit.setupCalls.length = 1) := by
  refine ⟨rfl, rfl, rfl, ?_, ?_⟩
  · obtain ⟨s', h, _, _, hc⟩ := runApp_frame env steps (load (processStart regs mem))
    have hc' : s'.setupCalls = [[]] := hc
    exact ⟨s', h, hc', by rw [hc']; rfl⟩
  · obtain ⟨s', h, _, _, hc⟩ :=
      runApp_frame env (List.replicate 100 10000) (load (processStart regs mem))
    have hc' : s'.setupCalls = [[]] := hc
    exact ⟨s', h, by rw [hc']; rfl⟩

/-- C6 (counterexample): the trigger executed twice in a fresh process invokes the
initializer twice, not once. -/
theorem trigger_twice_invokes_twice :
    (triggerN 2 (processStart (fun _ => 0) (fun _ => 0))).setupCalls = [[], []] ∧
      (triggerN 2 (processStart (fun _ => 0) (fun _ => 0))).setupCalls.length ≠ 1 := by
  constructor
  · rfl
  · decide

/-- C6 (amended): every execution of the trigger invokes the initializer, with no
argument: after `k` executions the log has grown by `k` entries, and in a fresh process
the initializer has been invoked exactly once if and only if `k = 1`. -/
theorem trigger_invokes_once_per_execution (k : Nat) (s : State) (regs mem : Nat → Nat) :
    (triggerN k s).setupCalls = s.setupCalls ++ List.replicate k [] ∧
      (triggerN k s).setupCalls.length = s.setupCalls.length + k ∧
      ((triggerN k (processStart regs mem)).setupCalls.length = 1 ↔ k = 1) := by
  refine ⟨(triggerN_calls k s).1, ?_, ?_⟩
  · rw [(triggerN_calls k s).1]; simp
  · rw [(triggerN_calls k (processStart regs mem)).1]; simp [processStart]

end CSebbuTSDS
